import Mathlib

/-! Formal model of the Heidi EMR Agent form-fill and workflow engine.

The definitions below are shallow embeddings of the TypeScript source:

* `fillField` / `fillForm` — the content script's single-field writer and
  mapping-driven form filler.
* `quickWrite`, `quickFrameFill`, `execFrameFill` — the per-frame fill
  function injected by quick-fill mode (which records failures from a
  catch block) and the workflow executor's variant (which ignores them).
* `processList` / `aggregateFrames` / `aggregateFill` — quick-fill mode's
  multi-frame reconciliation of per-frame filled/failed lists against the
  mapping's keys.
* `runSteps` / `runWorkflow` — the workflow executor's sequential step loop
  with its cooperative abort flag, and the app layer's step statuses.
* `waitPoll` / `navDiagnostics` — the executor's wait-for-element poll loop
  and the diagnostic element enumeration it performs on timeout.
* `executeAutoFillModel` — the AI auto-fill step's decision structure; the
  frame scan fan-out is abstracted as the `allFields` input (no claim
  depends on scan internals) and the oracle's mapping is an input, since
  the oracle is an external collaborator.

A document is a list of elements carrying the attributes the engine reads
(id, name attribute, widget kind, current value, checked state); a `throws`
flag models a host-page exception raised while focusing or mutating the
element (every write in the source is wrapped in try/catch).  Asynchronous
fan-out across frames is modelled as a list of independent documents
processed in frame enumeration order, matching the awaited, order-preserving
batch results of the scripting API. -/

/-- One option of a select element: its underlying value and display text. -/
structure SelOption where
  value : String
  text : String
deriving Repr, DecidableEq

/-- Widget kind of a DOM element as the engine distinguishes them: an input
with its type attribute, a textarea, a select with its options, or any other
element (not a form field). -/
inductive ElemKind where
  | input (ty : String)
  | textarea
  | selectElem (options : List SelOption)
  | other
deriving Repr, DecidableEq

/-- A DOM element as seen by the fill engine.  `nameAttr` is the name
attribute (`none` when absent).  `throws` models a host-page exception
raised during focus or mutation of this element. -/
structure Element where
  id : String
  nameAttr : Option String
  kind : ElemKind
  value : String
  checked : Bool
  throws : Bool
deriving Repr, DecidableEq

/-- Whether the first character list occurs at the head of the second. -/
def leadsWith : List Char → List Char → Bool
  | [], _ => true
  | _ :: _, [] => false
  | p :: ps, c :: cs => p == c && leadsWith ps cs

/-- Whether the first character list occurs contiguously in the second. -/
def occursIn (p : List Char) : List Char → Bool
  | [] => p.isEmpty
  | c :: cs => leadsWith p (c :: cs) || occursIn p cs

/-- JavaScript's `includes` on strings: substring containment. -/
def strIncludes (s sub : String) : Bool := occursIn sub.data s.data

/-- JavaScript's `toLowerCase` on the ASCII range the engine exercises,
defined structurally so concrete evaluation reduces. -/
def strLower (s : String) : String := ⟨s.data.map Char.toLower⟩

/-- JavaScript's `substring(0, n)` truncation, defined structurally. -/
def strTake (s : String) (n : Nat) : String := ⟨s.data.take n⟩

/-- First pass of the content-script select branch: exact match of the
requested value against an option's underlying value; returns the matched
option's value. -/
def exactMatch : List SelOption → String → Option String
  | [], _ => none
  | o :: rest, v => if o.value == v then some o.value else exactMatch rest v

/-- Second pass: case-insensitive equality-or-substring match of the
requested value (already lower-cased, `lv`) against option display text. -/
def textMatch (lv : String) : List SelOption → Option String
  | [] => none
  | o :: rest =>
    if strLower o.text == lv || strIncludes (strLower o.text) lv then some o.value
    else textMatch lv rest

/-- The content-script select matching: exact value match first, then the
case-insensitive text fallback. -/
def selMatch (opts : List SelOption) (v : String) : Option String :=
  match exactMatch opts v with
  | some w => some w
  | none => textMatch (strLower v) opts

/-- Events dispatched by `dispatchInputEvents`, in source order. -/
def dispatchedEvents : List String := ["focus", "input", "change", "blur"]

/-- Requested values parsed as true for checkboxes. -/
def truthyTokens : List String := ["true", "1", "yes", "on"]

/-- Result of one write: the boolean the writer returns, the element
afterwards, and the change-notification events dispatched. -/
structure WriteOut where
  ok : Bool
  el : Element
  events : List String
deriving Repr, DecidableEq

/-- Content-script `fillField`: type-directed write of one value into one
element.  Checkbox inputs parse the value case-insensitively against
`truthyTokens` and skip mutation and events when the state is unchanged;
radio inputs mutate only when the element's value or id equals the requested
value (and return true either way); date and all remaining input types, and
textareas, assign the value directly; selects use `selMatch` and return
false when nothing matches; any other element falls through every branch and
returns true.  A modelled exception (`throws`) is caught and yields false. -/
def fillField (el : Element) (v : String) : WriteOut :=
  if el.throws then ⟨false, el, []⟩
  else
    match el.kind with
    | .input ty =>
      if strLower ty == "checkbox" then
        let shouldCheck := truthyTokens.contains (strLower v)
        if el.checked != shouldCheck then
          ⟨true, { el with checked := shouldCheck }, dispatchedEvents⟩
        else ⟨true, el, []⟩
      else if strLower ty == "radio" then
        if el.value == v || el.id == v then
          ⟨true, { el with checked := true }, dispatchedEvents⟩
        else ⟨true, el, []⟩
      else ⟨true, { el with value := v }, dispatchedEvents⟩
    | .textarea => ⟨true, { el with value := v }, dispatchedEvents⟩
    | .selectElem opts =>
      match selMatch opts v with
      | some w => ⟨true, { el with value := w }, dispatchedEvents⟩
      | none => ⟨false, el, []⟩
    | .other => ⟨true, el, []⟩

/-- `document.getElementById(k)` as a predicate (the id lookup misses when
the key is empty). -/
def elemMatchesId (k : String) (e : Element) : Bool := (k != "") && (e.id == k)

/-- The `[name="k"]` selector as a predicate. -/
def elemMatchesName (k : String) (e : Element) : Bool := e.nameAttr == some k

/-- Element resolution used by every fill path: id lookup first, name
attribute lookup as the fallback. -/
def resolveTarget (doc : List Element) (k : String) : Option Element :=
  match doc.find? (elemMatchesId k) with
  | some e => some e
  | none => doc.find? (elemMatchesName k)

/-- Replace the first element satisfying the predicate (in-place DOM
mutation of the element that a lookup returned). -/
def updateFirst (p : Element → Bool) (e' : Element) : List Element → List Element
  | [] => []
  | e :: rest => if p e then e' :: rest else e :: updateFirst p e' rest

/-- Write back the mutated element at the position `resolveTarget` found. -/
def updateTarget (doc : List Element) (k : String) (e' : Element) : List Element :=
  match doc.find? (elemMatchesId k) with
  | some _ => updateFirst (elemMatchesId k) e' doc
  | none => updateFirst (elemMatchesName k) e' doc

/-- The content script's per-page fill outcome. -/
structure FillResult where
  filled : List String
  failed : List String
  notFound : List String
deriving Repr, DecidableEq

/-- The instanceof check in `fillForm`: input, textarea or select. -/
def isFormElement (e : Element) : Bool :=
  match e.kind with
  | .other => false
  | _ => true

/-- Content-script `fillForm`: iterate the mapping's entries in order; a key
resolving to no element is notFound, a key resolving to a non-form element
is failed, otherwise `fillField` decides filled versus failed and the
mutated element is written back into the document. -/
def fillForm (doc : List Element) : List (String × String) → FillResult × List Element
  | [] => (⟨[], [], []⟩, doc)
  | (k, v) :: rest =>
    match resolveTarget doc k with
    | none =>
      let r := fillForm doc rest
      (⟨r.1.filled, r.1.failed, k :: r.1.notFound⟩, r.2)
    | some e =>
      if isFormElement e then
        let w := fillField e v
        let r := fillForm (updateTarget doc k w.el) rest
        if w.ok then (⟨k :: r.1.filled, r.1.failed, r.1.notFound⟩, r.2)
        else (⟨r.1.filled, k :: r.1.failed, r.1.notFound⟩, r.2)
      else
        let r := fillForm doc rest
        (⟨r.1.filled, k :: r.1.failed, r.1.notFound⟩, r.2)

/-- The single option scan of the injected writers (quick-fill mode and the
workflow executor): one pass accepting the first option whose value matches
exactly or whose lower-cased text contains the lower-cased value. -/
def combinedMatch : List SelOption → String → Option String
  | [], _ => none
  | o :: rest, v =>
    if o.value == v || strIncludes (strLower o.text) (strLower v) then some o.value
    else combinedMatch rest v

/-- The injected writers' per-element mutation: inputs (of every type,
checkboxes and radios included) and textareas get the raw value assigned;
selects use `combinedMatch`; other elements are not written.  Returns the
mutated element when the writer records a fill. -/
def quickWrite (el : Element) (v : String) : Option Element :=
  match el.kind with
  | .input _ => some { el with value := v }
  | .textarea => some { el with value := v }
  | .selectElem opts =>
    match combinedMatch opts v with
    | some w => some { el with value := w }
    | none => none
  | .other => none

/-- One frame's report in quick-fill mode. -/
structure FrameFill where
  filled : List String
  failed : List String
deriving Repr, DecidableEq

/-- Quick-fill mode's injected per-frame fill: keys resolving to no element
are skipped (the target may live in a sibling frame), an exception during
the write is recorded as failed by the catch block, a recorded write is
filled, and a located element that the writer does not handle (unmatched
select, non-form element) is silently skipped. -/
def quickFrameFill (doc : List Element) : List (String × String) → FrameFill × List Element
  | [] => (⟨[], []⟩, doc)
  | (k, v) :: rest =>
    match resolveTarget doc k with
    | none => quickFrameFill doc rest
    | some e =>
      if e.throws then
        let r := quickFrameFill doc rest
        (⟨r.1.filled, k :: r.1.failed⟩, r.2)
      else
        match quickWrite e v with
        | some e' =>
          let r := quickFrameFill (updateTarget doc k e') rest
          (⟨k :: r.1.filled, r.1.failed⟩, r.2)
        | none => quickFrameFill doc rest

/-- The workflow executor's injected per-frame fill: as in quick-fill mode
but exceptions are ignored (empty catch), so only filled keys are
reported. -/
def execFrameFill (doc : List Element) : List (String × String) → List String × List Element
  | [] => ([], doc)
  | (k, v) :: rest =>
    match resolveTarget doc k with
    | none => execFrameFill doc rest
    | some e =>
      if e.throws then execFrameFill doc rest
      else
        match quickWrite e v with
        | some e' =>
          let r := execFrameFill (updateTarget doc k e') rest
          (k :: r.1, r.2)
        | none => execFrameFill doc rest

/-- One pass of quick-fill aggregation: append every not-yet-processed key
of `xs` to `out`, marking it processed. -/
def processList (proc out : List String) : List String → List String × List String
  | [] => (proc, out)
  | x :: rest =>
    if x ∈ proc then processList proc out rest
    else processList (x :: proc) (out ++ [x]) rest

/-- Fold the frame reports in frame order: each frame's filled list is
processed before its failed list, and a processed key is never
reconsidered.  Returns (processed, filled, failed). -/
def aggregateFrames : List FrameFill → List String → List String → List String →
    List String × List String × List String
  | [], proc, filled, failed => (proc, filled, failed)
  | r :: rest, proc, filled, failed =>
    let s1 := processList proc filled r.filled
    let s2 := processList s1.1 failed r.failed
    aggregateFrames rest s2.1 s1.2 s2.2

/-- Quick-fill mode's reconciliation: aggregate the frame reports, then
every mapping key never processed becomes notFound. -/
def aggregateFill (frames : List FrameFill) (keys : List String) : FillResult :=
  let a := aggregateFrames frames [] [] []
  ⟨a.2.1, a.2.2, keys.filter (fun k => decide (k ∉ a.1))⟩

/-- The whole multi-frame quick-fill pipeline on per-frame documents. -/
def quickFillAggregate (docs : List (List Element)) (m : List (String × String)) : FillResult :=
  aggregateFill (docs.map (fun d => (quickFrameFill d m).1)) (m.map Prod.fst)

/-- The first frame report mentioning a key, and whether it was a fill
(`some true`) or a failure (`some false`). -/
def firstReport : List FrameFill → String → Option Bool
  | [], _ => none
  | r :: rest, k =>
    if k ∈ r.filled then some true
    else if k ∈ r.failed then some false
    else firstReport rest k

/-- Step statuses tracked by the app layer. -/
inductive StepStatus where
  | pending | running | success | failed | skipped
deriving Repr, DecidableEq

/-- The executor's step loop: before each step the abort flag is read (set
means log and return false, leaving the remaining statuses untouched, i.e.
pending); a failed step returns false with the remaining statuses pending;
otherwise the step's status becomes success and the loop continues.  The
index argument numbers the abort-flag reads. -/
def runSteps (abortFlag : Nat → Bool) : List Bool → Nat → Bool × List StepStatus
  | [], _ => (true, [])
  | b :: rest, i =>
    if abortFlag i then (false, List.replicate (rest.length + 1) .pending)
    else if b then
      let r := runSteps abortFlag rest (i + 1)
      (r.1, .success :: r.2)
    else (false, .failed :: List.replicate rest.length .pending)

/-- `executeWorkflow` paired with the app layer's step statuses: `outcomes`
lists each step's own success, `abortFlag i` is the flag's state when read
before step `i`. -/
def runWorkflow (outcomes : List Bool) (abortFlag : Nat → Bool) : Bool × List StepStatus :=
  runSteps abortFlag outcomes 0

/-- The app layer's terminal status for a run. -/
inductive AppStatus where
  | done | error
deriving Repr, DecidableEq

/-- `setStatus(success ? 'done' : 'error')` after a workflow run. -/
def appFinalStatus (ok : Bool) : AppStatus := if ok then .done else .error

/-- An element as the wait-timeout diagnostic sees it: uppercase tag name,
id, class attribute, trimmed text content. -/
structure PageElem where
  tag : String
  id : String
  className : String
  text : String
deriving Repr, DecidableEq

/-- The diagnostic query of `executeWait` after a timeout: elements whose id
or class contains category, menu or Clinical, plus all anchors and
buttons. -/
def matchesNavSelector (e : PageElem) : Bool :=
  strIncludes e.id "category" || strIncludes e.className "category" ||
  strIncludes e.id "menu" || strIncludes e.className "menu" ||
  strIncludes e.id "Clinical" || strIncludes e.className "Clinical" ||
  e.tag == "A" || e.tag == "BUTTON"

/-- The description string pushed for one diagnostic element. -/
def describeNav (e : PageElem) : String :=
  e.tag ++ "#" ++ (if e.id == "" then "(no-id)" else e.id) ++ "." ++
    strTake e.className 20 ++ " \"" ++ strTake e.text 30 ++ "\""

/-- One frame's diagnostic element list: selector matches that have a
non-empty id or class, described, truncated to the first 15. -/
def navDiagnostics (page : List PageElem) : List String :=
  ((page.filter (fun e => matchesNavSelector e && (e.id != "" || e.className != ""))).map
    describeNav).take 15

/-- Outcome of a `NAVIGATE_WAIT` step: the step result plus the per-frame
diagnostic lists captured on timeout. -/
structure WaitOutcome where
  success : Bool
  message : String
  diagnostics : List (List String)
deriving Repr, DecidableEq

/-- The wait-poll loop of `executeWait`: each iteration reads the abort
flag, then probes all frames for the selector; when the budget (`fuel`
polls) is exhausted the diagnostic enumeration of every frame is captured
and the step fails with a timeout message. -/
def waitPoll (abortFlag found : Nat → Bool) (frames : List (List PageElem)) (sel : String) :
    Nat → Nat → WaitOutcome
  | _, 0 => ⟨false, "Timeout waiting for: " ++ sel, frames.map navDiagnostics⟩
  | i, fuel + 1 =>
    if abortFlag i then ⟨false, "Aborted", []⟩
    else if found i then ⟨true, "Element found", []⟩
    else waitPoll abortFlag found frames sel (i + 1) fuel

/-- An interactive element in the sense of the specification's diagnostic
enumeration: buttons, links, inputs, selects. -/
def interactiveTag (e : PageElem) : Bool :=
  e.tag == "A" || e.tag == "BUTTON" || e.tag == "INPUT" || e.tag == "SELECT"

/-- A scanned field descriptor as the executor's auto-fill step builds it. -/
structure ScanField where
  id : String
  name : String
  type : String
  placeholder : String
  label : String
  tagName : String
  options : Option (List String)
deriving Repr, DecidableEq

/-- Result of executing a single workflow step. -/
structure StepResult where
  success : Bool
  message : String
deriving Repr, DecidableEq

/-- The executor's `executeAutoFill` decision structure: no scanned fields
fails the step; an empty oracle mapping succeeds without writing anything;
otherwise the injected fill runs in every frame and the step succeeds,
reporting the total number of recorded fills. -/
def executeAutoFillModel (allFields : List ScanField) (mapping : List (String × String))
    (docs : List (List Element)) : StepResult × List (List Element) :=
  if allFields.length = 0 then (⟨false, "No form fields found"⟩, docs)
  else if mapping.length = 0 then
    (⟨true, "No fields to fill (AI found no matches)"⟩, docs)
  else
    let results := docs.map (fun d => execFrameFill d mapping)
    let filledFields := (results.map (fun r => r.1)).flatten
    (⟨true, "Filled " ++ toString filledFields.length ++ " fields"⟩,
      results.map (fun r => r.2))

/-- The attributes of an element that lookup and classification read; a
write only ever changes `value` and `checked`, never these. -/
def shape (e : Element) : String × Option String × ElemKind × Bool :=
  (e.id, e.nameAttr, e.kind, e.throws)

/-- The spec's FillOutcome invariant: the three sets partition the mapping
keys — their union is the key set and they are pairwise disjoint. -/
def PartitionsKeys (r : FillResult) (keys : List String) : Prop :=
  (∀ k, k ∈ keys ↔ (k ∈ r.filled ∨ k ∈ r.failed ∨ k ∈ r.notFound)) ∧
  (∀ k, ¬(k ∈ r.filled ∧ k ∈ r.failed)) ∧
  (∀ k, ¬(k ∈ r.filled ∧ k ∈ r.notFound)) ∧
  (∀ k, ¬(k ∈ r.failed ∧ k ∈ r.notFound))

/-- Membership in the processed set after one `processList` pass. -/
theorem processList_proc_mem (y : String) :
    ∀ (xs proc out : List String),
      (y ∈ (processList proc out xs).1 ↔ y ∈ proc ∨ y ∈ xs) := by
  intro xs
  induction xs with
  | nil => intro proc out; simp [processList]
  | cons x rest ih =>
    intro proc out
    by_cases hx : x ∈ proc
    · rw [processList, if_pos hx, ih]
      constructor
      · rintro (h | h)
        · exact Or.inl h
        · exact Or.inr (List.mem_cons_of_mem _ h)
      · rintro (h | h)
        · exact Or.inl h
        · rcases List.mem_cons.mp h with rfl | h
          · exact Or.inl hx
          · exact Or.inr h
    · rw [processList, if_neg hx, ih]
      constructor
      · rintro (h | h)
        · rcases List.mem_cons.mp h with rfl | h
          · exact Or.inr (List.mem_cons_self _ _)
          · exact Or.inl h
        · exact Or.inr (List.mem_cons_of_mem _ h)
      · rintro (h | h)
        · exact Or.inl (List.mem_cons_of_mem _ h)
        · rcases List.mem_cons.mp h with rfl | h
          · exact Or.inl (List.mem_cons_self _ _)
          · exact Or.inr h

/-- Membership in the output list after one `processList` pass. -/
theorem processList_out_mem (y : String) :
    ∀ (xs proc out : List String),
      (y ∈ (processList proc out xs).2 ↔ y ∈ out ∨ (y ∈ xs ∧ y ∉ proc)) := by
  intro xs
  induction xs with
  | nil => intro proc out; simp [processList]
  | cons x rest ih =>
    intro proc out
    by_cases hx : x ∈ proc
    · rw [processList, if_pos hx, ih]
      constructor
      · rintro (h | ⟨h1, h2⟩)
        · exact Or.inl h
        · exact Or.inr ⟨List.mem_cons_of_mem _ h1, h2⟩
      · rintro (h | ⟨h1, h2⟩)
        · exact Or.inl h
        · rcases List.mem_cons.mp h1 with rfl | h1
          · exact absurd hx h2
          · exact Or.inr ⟨h1, h2⟩
    · rw [processList, if_neg hx, ih]
      constructor
      · rintro (h | ⟨h1, h2⟩)
        · rcases List.mem_append.mp h with h | h
          · exact Or.inl h
          · rcases List.mem_singleton.mp h with rfl
            exact Or.inr ⟨List.mem_cons_self _ _, hx⟩
        · have h2' : y ∉ proc := fun hc => h2 (List.mem_cons_of_mem _ hc)
          have hyx : y ≠ x := by
            rintro rfl
            exact h2 (List.mem_cons_self _ _)
          exact Or.inr ⟨List.mem_cons_of_mem _ h1, h2'⟩
      · rintro (h | ⟨h1, h2⟩)
        · exact Or.inl (List.mem_append_left _ h)
        · rcases List.mem_cons.mp h1 with rfl | h1
          · exact Or.inl (List.mem_append_right _ (List.mem_singleton.mpr rfl))
          · by_cases hyx : y = x
            · subst hyx
              exact Or.inl (List.mem_append_right _ (List.mem_singleton.mpr rfl))
            · refine Or.inr ⟨h1, ?_⟩
              intro hc
              rcases List.mem_cons.mp hc with h | h
              · exact hyx h
              · exact h2 h

/-- Membership in the aggregated filled list, in terms of the first frame
report mentioning the key. -/
theorem aggregateFrames_filled_mem (y : String) :
    ∀ (frames : List FrameFill) (proc filled failed : List String),
      (y ∈ (aggregateFrames frames proc filled failed).2.1 ↔
        y ∈ filled ∨ (y ∉ proc ∧ firstReport frames y = some true)) := by
  intro frames
  induction frames with
  | nil => intro proc filled failed; simp [aggregateFrames, firstReport]
  | cons r rest ih =>
    intro proc filled failed
    rw [aggregateFrames]
    simp only [ih, processList_out_mem, processList_proc_mem, firstReport]
    by_cases h1 : y ∈ r.filled <;> by_cases h2 : y ∈ r.failed <;>
      by_cases h3 : y ∈ proc <;> simp [h1, h2, h3]

/-- Membership in the aggregated failed list, in terms of the first frame
report mentioning the key. -/
theorem aggregateFrames_failed_mem (y : String) :
    ∀ (frames : List FrameFill) (proc filled failed : List String),
      (y ∈ (aggregateFrames frames proc filled failed).2.2 ↔
        y ∈ failed ∨ (y ∉ proc ∧ firstReport frames y = some false)) := by
  intro frames
  induction frames with
  | nil => intro proc filled failed; simp [aggregateFrames, firstReport]
  | cons r rest ih =>
    intro proc filled failed
    rw [aggregateFrames]
    simp only [ih, processList_out_mem, processList_proc_mem, firstReport]
    by_cases h1 : y ∈ r.filled <;> by_cases h2 : y ∈ r.failed <;>
      by_cases h3 : y ∈ proc <;> simp [h1, h2, h3]

/-- Membership in the processed set after aggregation: the key was
mentioned by some frame (or was processed before). -/
theorem aggregateFrames_proc_mem (y : String) :
    ∀ (frames : List FrameFill) (proc filled failed : List String),
      (y ∈ (aggregateFrames frames proc filled failed).1 ↔
        y ∈ proc ∨ (firstReport frames y).isSome) := by
  intro frames
  induction frames with
  | nil => intro proc filled failed; simp [aggregateFrames, firstReport]
  | cons r rest ih =>
    intro proc filled failed
    rw [aggregateFrames]
    simp only [ih, processList_proc_mem, firstReport]
    by_cases h1 : y ∈ r.filled <;> by_cases h2 : y ∈ r.failed <;>
      by_cases h3 : y ∈ proc <;> simp [h1, h2, h3]

/-- Keys in the aggregated filled set are exactly those whose first frame
report was a fill. -/
theorem aggregateFill_filled_iff (frames : List FrameFill) (keys : List String) (k : String) :
    k ∈ (aggregateFill frames keys).filled ↔ firstReport frames k = some true := by
  simp [aggregateFill, aggregateFrames_filled_mem]

/-- Keys in the aggregated failed set are exactly those whose first frame
report was a failure. -/
theorem aggregateFill_failed_iff (frames : List FrameFill) (keys : List String) (k : String) :
    k ∈ (aggregateFill frames keys).failed ↔ firstReport frames k = some false := by
  simp [aggregateFill, aggregateFrames_failed_mem]

/-- Keys in the aggregated notFound set are exactly the mapping keys no
frame ever mentioned. -/
theorem aggregateFill_notFound_iff (frames : List FrameFill) (keys : List String) (k : String) :
    k ∈ (aggregateFill frames keys).notFound ↔
      (k ∈ keys ∧ firstReport frames k = none) := by
  simp only [aggregateFill, List.mem_filter, decide_eq_true_eq, aggregateFrames_proc_mem,
    List.not_mem_nil, false_or, Option.not_isSome_iff_eq_none]

/-- A mentioned key belongs to some frame's filled or failed list. -/
theorem firstReport_some_mentioned (k : String) :
    ∀ (frames : List FrameFill) (b : Bool), firstReport frames k = some b →
      ∃ r ∈ frames, k ∈ r.filled ∨ k ∈ r.failed := by
  intro frames
  induction frames with
  | nil => intro b h; simp [firstReport] at h
  | cons r rest ih =>
    intro b h
    rw [firstReport] at h
    by_cases h1 : k ∈ r.filled
    · exact ⟨r, List.mem_cons_self _ _, Or.inl h1⟩
    · by_cases h2 : k ∈ r.failed
      · exact ⟨r, List.mem_cons_self _ _, Or.inr h2⟩
      · rw [if_neg h1, if_neg h2] at h
        obtain ⟨r', hr', hm⟩ := ih b h
        exact ⟨r', List.mem_cons_of_mem _ hr', hm⟩

/-- Every key a quick-fill frame reports as filled is a mapping key. -/
theorem quickFrameFill_filled_sub (k : String) :
    ∀ (m : List (String × String)) (doc : List Element),
      k ∈ (quickFrameFill doc m).1.filled → k ∈ m.map Prod.fst := by
  intro m
  induction m with
  | nil => intro doc h; simp [quickFrameFill] at h
  | cons kv rest ih =>
    intro doc h
    obtain ⟨k', v'⟩ := kv
    rw [quickFrameFill] at h
    cases hr : resolveTarget doc k' with
    | none =>
      rw [hr] at h
      exact List.mem_cons_of_mem _ (ih doc h)
    | some e =>
      rw [hr] at h
      by_cases he : e.throws
      · simp only [if_pos he] at h
        exact List.mem_cons_of_mem _ (ih doc h)
      · simp only [if_neg he] at h
        cases hw : quickWrite e v' with
        | none =>
          rw [hw] at h
          exact List.mem_cons_of_mem _ (ih doc h)
        | some e' =>
          rw [hw] at h
          simp only [List.mem_cons] at h
          rcases h with rfl | h
          · simp
          · exact List.mem_cons_of_mem _ (ih _ h)

/-- Every key a quick-fill frame reports as failed is a mapping key. -/
theorem quickFrameFill_failed_sub (k : String) :
    ∀ (m : List (String × String)) (doc : List Element),
      k ∈ (quickFrameFill doc m).1.failed → k ∈ m.map Prod.fst := by
  intro m
  induction m with
  | nil => intro doc h; simp [quickFrameFill] at h
  | cons kv rest ih =>
    intro doc h
    obtain ⟨k', v'⟩ := kv
    rw [quickFrameFill] at h
    cases hr : resolveTarget doc k' with
    | none =>
      rw [hr] at h
      exact List.mem_cons_of_mem _ (ih doc h)
    | some e =>
      rw [hr] at h
      by_cases he : e.throws
      · simp only [if_pos he, List.mem_cons] at h
        rcases h with rfl | h
        · simp
        · exact List.mem_cons_of_mem _ (ih doc h)
      · simp only [if_neg he] at h
        cases hw : quickWrite e v' with
        | none =>
          rw [hw] at h
          exact List.mem_cons_of_mem _ (ih doc h)
        | some e' =>
          rw [hw] at h
          exact List.mem_cons_of_mem _ (ih _ h)

/-- The three `fillForm` lists taken together are a permutation of the
mapping's keys: every key is classified exactly once. -/
theorem fillForm_perm :
    ∀ (m : List (String × String)) (doc : List Element),
      ((fillForm doc m).1.filled ++ (fillForm doc m).1.failed ++
        (fillForm doc m).1.notFound).Perm (m.map Prod.fst) := by
  intro m
  induction m with
  | nil => intro doc; simp [fillForm]
  | cons kv rest ih =>
    intro doc
    obtain ⟨k, v⟩ := kv
    rw [fillForm]
    cases hr : resolveTarget doc k with
    | none =>
      simpa using List.perm_middle.trans ((ih doc).cons k)
    | some e =>
      by_cases hform : isFormElement e
      · simp only [if_pos hform]
        by_cases hok : (fillField e v).ok
        · simp only [if_pos hok]
          simpa using (ih (updateTarget doc k (fillField e v).el)).cons k
        · simp only [if_neg hok]
          have h1 : (((fillForm (updateTarget doc k (fillField e v).el) rest).1.filled ++
                k :: (fillForm (updateTarget doc k (fillField e v).el) rest).1.failed) ++
                (fillForm (updateTarget doc k (fillField e v).el) rest).1.notFound).Perm
              ((k :: ((fillForm (updateTarget doc k (fillField e v).el) rest).1.filled ++
                (fillForm (updateTarget doc k (fillField e v).el) rest).1.failed)) ++
                (fillForm (updateTarget doc k (fillField e v).el) rest).1.notFound) :=
            List.perm_middle.append_right _
          simpa using h1.trans ((ih (updateTarget doc k (fillField e v).el)).cons k)
      · simp only [if_neg hform]
        have h1 : (((fillForm doc rest).1.filled ++ k :: (fillForm doc rest).1.failed) ++
              (fillForm doc rest).1.notFound).Perm
            ((k :: ((fillForm doc rest).1.filled ++ (fillForm doc rest).1.failed)) ++
              (fillForm doc rest).1.notFound) :=
          List.perm_middle.append_right _
        simpa using h1.trans ((ih doc).cons k)

/-- A fill outcome whose three lists permute a duplicate-free key list
partitions that key list. -/
theorem perm_partitionsKeys (r : FillResult) (keys : List String)
    (h : (r.filled ++ r.failed ++ r.notFound).Perm keys) (hnd : keys.Nodup) :
    PartitionsKeys r keys := by
  have hnd' : ((r.filled ++ r.failed) ++ r.notFound).Nodup := h.nodup_iff.mpr hnd
  rw [List.nodup_append] at hnd'
  obtain ⟨h12, h3, hdis2⟩ := hnd'
  rw [List.nodup_append] at h12
  obtain ⟨h1, h2, hdis1⟩ := h12
  refine ⟨?_, ?_, ?_, ?_⟩
  · intro k
    rw [← h.mem_iff]
    simp [List.mem_append, or_assoc]
  · rintro k ⟨ha, hb⟩
    exact hdis1 ha hb
  · rintro k ⟨ha, hb⟩
    exact hdis2 (List.mem_append_left _ ha) hb
  · rintro k ⟨ha, hb⟩
    exact hdis2 (List.mem_append_right _ ha) hb

/-- The quick-fill aggregation partitions the mapping keys whenever every
frame report stays inside the key set. -/
theorem aggregate_partitionsKeys (frames : List FrameFill) (keys : List String)
    (hsub : ∀ r ∈ frames, (∀ k ∈ r.filled, k ∈ keys) ∧ ∀ k ∈ r.failed, k ∈ keys) :
    PartitionsKeys (aggregateFill frames keys) keys := by
  refine ⟨?_, ?_, ?_, ?_⟩
  · intro k
    rw [aggregateFill_filled_iff, aggregateFill_failed_iff, aggregateFill_notFound_iff]
    constructor
    · intro hk
      cases hfr : firstReport frames k with
      | none => exact Or.inr (Or.inr ⟨hk, rfl⟩)
      | some b =>
        cases b
        · exact Or.inr (Or.inl rfl)
        · exact Or.inl rfl
    · rintro (h | h | h)
      · obtain ⟨r, hr, hm⟩ := firstReport_some_mentioned k frames true h
        rcases hm with hm | hm
        · exact (hsub r hr).1 k hm
        · exact (hsub r hr).2 k hm
      · obtain ⟨r, hr, hm⟩ := firstReport_some_mentioned k frames false h
        rcases hm with hm | hm
        · exact (hsub r hr).1 k hm
        · exact (hsub r hr).2 k hm
      · exact h.1
  · rintro k ⟨ha, hb⟩
    rw [aggregateFill_filled_iff] at ha
    rw [aggregateFill_failed_iff] at hb
    rw [ha] at hb
    cases hb
  · rintro k ⟨ha, hb⟩
    rw [aggregateFill_filled_iff] at ha
    rw [aggregateFill_notFound_iff] at hb
    rw [hb.2] at ha
    cases ha
  · rintro k ⟨ha, hb⟩
    rw [aggregateFill_failed_iff] at ha
    rw [aggregateFill_notFound_iff] at hb
    rw [hb.2] at ha
    cases ha

/-- `find?` only inspects shapes when its predicate factors through
`shape`, so shape-equal documents agree on it up to shape. -/
theorem find?_congr_shape (p : Element → Bool)
    (hp : ∀ a b, shape a = shape b → p a = p b) :
    ∀ (d1 d2 : List Element), d1.map shape = d2.map shape →
      Option.map shape (d1.find? p) = Option.map shape (d2.find? p) := by
  intro d1
  induction d1 with
  | nil =>
    intro d2 h
    cases d2 with
    | nil => rfl
    | cons b l2 => simp at h
  | cons a l ih =>
    intro d2 h
    cases d2 with
    | nil => simp at h
    | cons b l2 =>
      simp only [List.map_cons, List.cons.injEq] at h
      obtain ⟨hab, hl⟩ := h
      have hpab : p a = p b := hp a b hab
      cases hpa : p a with
      | true =>
        have hpb : p b = true := by rw [← hpab]; exact hpa
        rw [List.find?_cons_of_pos _ hpa, List.find?_cons_of_pos _ hpb]
        simpa using hab
      | false =>
        have hpb : p b = false := by rw [← hpab]; exact hpa
        rw [List.find?_cons_of_neg _ (by simp [hpa]), List.find?_cons_of_neg _ (by simp [hpb])]
        exact ih l2 hl

/-- The id-lookup predicate reads only the shape. -/
theorem elemMatchesId_shape (k : String) (a b : Element) (h : shape a = shape b) :
    elemMatchesId k a = elemMatchesId k b := by
  have hid : a.id = b.id := congrArg Prod.fst h
  simp [elemMatchesId, hid]

/-- The name-lookup predicate reads only the shape. -/
theorem elemMatchesName_shape (k : String) (a b : Element) (h : shape a = shape b) :
    elemMatchesName k a = elemMatchesName k b := by
  have hn : a.nameAttr = b.nameAttr := congrArg (fun s => s.2.1) h
  simp [elemMatchesName, hn]

/-- The form-element check reads only the shape. -/
theorem isFormElement_shape (a b : Element) (h : shape a = shape b) :
    isFormElement a = isFormElement b := by
  have hk : a.kind = b.kind := congrArg (fun s => s.2.2.1) h
  simp [isFormElement, hk]

/-- Shape-equal documents resolve every key to shape-equal targets. -/
theorem resolveTarget_congr (k : String) (d1 d2 : List Element)
    (h : d1.map shape = d2.map shape) :
    Option.map shape (resolveTarget d1 k) = Option.map shape (resolveTarget d2 k) := by
  have h1 := find?_congr_shape (elemMatchesId k) (elemMatchesId_shape k) d1 d2 h
  rw [resolveTarget, resolveTarget]
  cases hf1 : d1.find? (elemMatchesId k) with
  | some e1 =>
    rw [hf1] at h1
    cases hf2 : d2.find? (elemMatchesId k) with
    | none => rw [hf2] at h1; simp at h1
    | some e2 => rw [hf2] at h1; simpa using h1
  | none =>
    rw [hf1] at h1
    cases hf2 : d2.find? (elemMatchesId k) with
    | some e2 => rw [hf2] at h1; simp at h1
    | none =>
      exact find?_congr_shape (elemMatchesName k) (elemMatchesName_shape k) d1 d2 h

/-- Replacing the first match with a shape-equal element keeps the
document's shapes. -/
theorem updateFirst_shape (p : Element → Bool) (e' : Element) :
    ∀ (doc : List Element) (e : Element), doc.find? p = some e → shape e' = shape e →
      (updateFirst p e' doc).map shape = doc.map shape := by
  intro doc
  induction doc with
  | nil => intro e h; simp at h
  | cons a l ih =>
    intro e hf hs
    cases hpa : p a with
    | true =>
      rw [List.find?_cons_of_pos _ hpa] at hf
      injection hf with hf
      rw [updateFirst, if_pos hpa]
      simp [hf ▸ hs]
    | false =>
      rw [List.find?_cons_of_neg _ (by simp [hpa])] at hf
      rw [updateFirst, if_neg (by simp [hpa])]
      simp [ih e hf hs]

/-- Writing back a shape-preserving mutation keeps the document's shapes. -/
theorem updateTarget_shape (doc : List Element) (k : String) (e e' : Element)
    (hr : resolveTarget doc k = some e) (hs : shape e' = shape e) :
    (updateTarget doc k e').map shape = doc.map shape := by
  rw [resolveTarget] at hr
  rw [updateTarget]
  cases hf : doc.find? (elemMatchesId k) with
  | some e0 =>
    rw [hf] at hr
    injection hr with hr
    exact updateFirst_shape _ _ doc e0 hf (hr ▸ hs)
  | none =>
    rw [hf] at hr
    exact updateFirst_shape _ _ doc e hr hs

/-- A write never changes an element's id, name attribute, kind or throws
flag. -/
theorem fillField_shape (el : Element) (v : String) :
    shape (fillField el v).el = shape el := by
  by_cases ht : el.throws
  · simp [fillField, ht]
  · cases hk : el.kind with
    | input ty =>
      by_cases hcb : strLower ty = "checkbox"
      · simp [fillField, ht, hk, hcb, shape]; split_ifs <;> simp_all
      · by_cases hrd : strLower ty = "radio"
        · simp [fillField, ht, hk, hcb, hrd, shape]; split_ifs <;> simp_all
        · simp [fillField, ht, hk, hcb, hrd, shape]
    | textarea => simp [fillField, ht, hk, shape]
    | selectElem opts =>
      cases hm : selMatch opts v with
      | some w => simp [fillField, ht, hk, hm, shape]
      | none => simp [fillField, ht, hk, hm, shape]
    | other => simp [fillField, ht, hk, shape]

/-- How `fillForm` classifies one mapping key, stated against the original
document: a key no lookup resolves lands in notFound, a key resolving to a
non-form element lands in failed, and a key resolving to a form element
lands in filled or failed.  The generalization over a shape-equal working
document mirrors the fact that earlier writes only change values. -/
theorem fillForm_classify (k v : String) :
    ∀ (m : List (String × String)) (doc doc0 : List Element),
      doc.map shape = doc0.map shape →
      (k, v) ∈ m →
      ((resolveTarget doc0 k = none → k ∈ (fillForm doc m).1.notFound) ∧
       (∀ e0, resolveTarget doc0 k = some e0 → isFormElement e0 = false →
         k ∈ (fillForm doc m).1.failed) ∧
       (∀ e0, resolveTarget doc0 k = some e0 → isFormElement e0 = true →
         k ∈ (fillForm doc m).1.filled ∨ k ∈ (fillForm doc m).1.failed)) := by
  intro m
  induction m with
  | nil =>
    intro doc doc0 hsh hmem
    simp at hmem
  | cons kv rest ih =>
    intro doc doc0 hsh hmem
    obtain ⟨k', v'⟩ := kv
    rw [List.mem_cons] at hmem
    rcases hmem with heq | hmem
    · injection heq with hk hv
      subst hk
      subst hv
      have hcong := resolveTarget_congr k doc doc0 hsh
      rw [fillForm]
      cases hr : resolveTarget doc k with
      | none =>
        rw [hr] at hcong
        refine ⟨fun _ => List.mem_cons_self _ _, fun e0 h0 _ => ?_, fun e0 h0 _ => ?_⟩
        · rw [h0] at hcong; simp at hcong
        · rw [h0] at hcong; simp at hcong
      | some e =>
        rw [hr] at hcong
        dsimp only
        refine ⟨fun h0 => ?_, fun e0 h0 hnf => ?_, fun e0 h0 hf => ?_⟩
        · rw [h0] at hcong; simp at hcong
        · rw [h0] at hcong
          simp at hcong
          have hform : isFormElement e = false := by
            rw [isFormElement_shape e e0 hcong]
            exact hnf
          rw [if_neg (by simp [hform])]
          exact List.mem_cons_self _ _
        · rw [h0] at hcong
          simp at hcong
          have hform : isFormElement e = true := by
            rw [isFormElement_shape e e0 hcong]
            exact hf
          rw [if_pos hform]
          by_cases hok : (fillField e v).ok
          · rw [if_pos hok]
            exact Or.inl (List.mem_cons_self _ _)
          · rw [if_neg hok]
            exact Or.inr (List.mem_cons_self _ _)
    · rw [fillForm]
      cases hr : resolveTarget doc k' with
      | none =>
        have hrec := ih doc doc0 hsh hmem
        exact ⟨fun h0 => List.mem_cons_of_mem _ (hrec.1 h0),
               fun e0 h0 hnf => hrec.2.1 e0 h0 hnf,
               fun e0 h0 hf => hrec.2.2 e0 h0 hf⟩
      | some e =>
        dsimp only
        by_cases hform : isFormElement e
        · rw [if_pos hform]
          have hsh' : (updateTarget doc k' (fillField e v').el).map shape = doc0.map shape := by
            rw [updateTarget_shape doc k' e (fillField e v').el hr (fillField_shape e v')]
            exact hsh
          have hrec := ih (updateTarget doc k' (fillField e v').el) doc0 hsh' hmem
          by_cases hok : (fillField e v').ok
          · rw [if_pos hok]
            exact ⟨fun h0 => hrec.1 h0,
                   fun e0 h0 hnf => hrec.2.1 e0 h0 hnf,
                   fun e0 h0 hf => (hrec.2.2 e0 h0 hf).imp (List.mem_cons_of_mem _) id⟩
          · rw [if_neg hok]
            exact ⟨fun h0 => hrec.1 h0,
                   fun e0 h0 hnf => List.mem_cons_of_mem _ (hrec.2.1 e0 h0 hnf),
                   fun e0 h0 hf => (hrec.2.2 e0 h0 hf).imp id (List.mem_cons_of_mem _)⟩
        · rw [if_neg hform]
          have hrec := ih doc doc0 hsh hmem
          exact ⟨fun h0 => hrec.1 h0,
                 fun e0 h0 hnf => List.mem_cons_of_mem _ (hrec.2.1 e0 h0 hnf),
                 fun e0 h0 hf => (hrec.2.2 e0 h0 hf).imp id (List.mem_cons_of_mem _)⟩

/-- The injected writers' select scan picks the first option passing the
combined exact-value-or-text-substring test. -/
theorem combinedMatch_eq_find? :
    ∀ (opts : List SelOption) (v : String),
      combinedMatch opts v =
        (opts.find? (fun o => o.value == v || strIncludes (strLower o.text) (strLower v))).map
          SelOption.value := by
  intro opts
  induction opts with
  | nil => intro v; rfl
  | cons o rest ih =>
    intro v
    by_cases hc : (o.value == v || strIncludes (strLower o.text) (strLower v)) = true
    · rw [combinedMatch, if_pos hc,
        List.find?_cons_of_pos (p := fun (o : SelOption) => o.value == v || strIncludes (strLower o.text) (strLower v)) _ hc]
      rfl
    · rw [combinedMatch, if_neg hc,
        List.find?_cons_of_neg (p := fun (o : SelOption) => o.value == v || strIncludes (strLower o.text) (strLower v)) _ hc, ih]

/-- Behavior of the step loop when the abort flag turns on before step `i`
(counting from the loop's starting index `n`): the completed prefix stays
success, everything else stays pending, and the run returns false. -/
theorem runSteps_abort_general (abortFlag : Nat → Bool) (i : Nat) :
    ∀ (outcomes : List Bool) (n : Nat),
      i < outcomes.length →
      (∀ j, j < i → abortFlag (n + j) = false) →
      (∀ j, j < i → outcomes.getD j false = true) →
      abortFlag (n + i) = true →
      runSteps abortFlag outcomes n =
        (false, List.replicate i StepStatus.success ++
          List.replicate (outcomes.length - i) StepStatus.pending) := by
  induction i with
  | zero =>
    intro outcomes n hi hpre hsucc habort
    match outcomes, hi with
    | b :: rest, _ =>
      have h0 : abortFlag n = true := by simpa using habort
      simp [runSteps, h0]
  | succ i ih =>
    intro outcomes n hi hpre hsucc habort
    match outcomes, hi with
    | b :: rest, hi =>
      have h0 : abortFlag n = false := by simpa using hpre 0 (Nat.succ_pos _)
      have hb : b = true := by simpa using hsucc 0 (Nat.succ_pos _)
      have hrest := ih rest (n + 1) (Nat.lt_of_succ_lt_succ hi)
        (fun j hj => by
          have h := hpre (j + 1) (Nat.succ_lt_succ hj)
          have e : n + (j + 1) = n + 1 + j := by omega
          rw [e] at h
          exact h)
        (fun j hj => by
          have h := hsucc (j + 1) (Nat.succ_lt_succ hj)
          simpa using h)
        (by
          have e : n + 1 + i = n + (i + 1) := by omega
          rw [e]
          exact habort)
      subst hb
      simp [runSteps, h0, hrest, List.replicate_succ, Nat.succ_sub_succ]

/-- Claim C9: when the oracle returns an empty mapping for an AI fill step
(with a non-empty scanned schema), the step completes successfully with
zero fills and no document is touched; an empty mapping is not a step
failure. -/
theorem autofill_empty_mapping_success (allFields : List ScanField)
    (docs : List (List Element)) (h : allFields ≠ []) :
    executeAutoFillModel allFields [] docs =
      (⟨true, "No fields to fill (AI found no matches)"⟩, docs) := by
  have hl : allFields.length ≠ 0 := by
    simpa [List.length_eq_zero] using h
  simp [executeAutoFillModel, hl]

/-- Witness for C9 at a concrete one-field schema. -/
theorem autofill_empty_mapping_success_witness :
    ([(⟨"note", "", "textarea", "", "Note", "textarea", none⟩ : ScanField)] ≠ []) ∧
    executeAutoFillModel [⟨"note", "", "textarea", "", "Note", "textarea", none⟩] [] [] =
      (⟨true, "No fields to fill (AI found no matches)"⟩, []) :=
  ⟨by decide, autofill_empty_mapping_success _ [] (by decide)⟩

/-- Claim C3 counterexample: aborting after step 1 of a two-step run leaves
step 2 `pending` — never `skipped` — and the run returns false, which the
app maps to the same `error` status as a genuinely failed run; no `aborted`
status exists. -/
theorem workflow_abort_cex :
    runWorkflow [true, true] (fun j => decide (1 ≤ j)) =
      (false, [StepStatus.success, StepStatus.pending]) ∧
    StepStatus.pending ≠ StepStatus.skipped ∧
    appFinalStatus (runWorkflow [true, true] (fun j => decide (1 ≤ j))).1 = AppStatus.error ∧
    appFinalStatus (runWorkflow [false] (fun _ => false)).1 = AppStatus.error := by
  exact ⟨by decide, by decide, by decide, by decide⟩

/-- Claim C3 (amended): if the abort flag turns on before step `i` of a run
whose first `i` steps succeeded, no further step executes, the remaining
steps stay `pending` (not `skipped`), and the run returns false — the same
unsuccessful result as a failure; there is no distinct aborted status. -/
theorem workflow_abort_amended (outcomes : List Bool) (abortFlag : Nat → Bool) (i : Nat)
    (hi : i < outcomes.length)
    (hpre : ∀ j, j < i → abortFlag j = false)
    (hsucc : ∀ j, j < i → outcomes.getD j false = true)
    (habort : abortFlag i = true) :
    runWorkflow outcomes abortFlag =
      (false, List.replicate i StepStatus.success ++
        List.replicate (outcomes.length - i) StepStatus.pending) := by
  have h := runSteps_abort_general abortFlag i outcomes 0 hi
    (fun j hj => by simpa using hpre j hj)
    hsucc (by simpa using habort)
  simpa [runWorkflow] using h

/-- Witness for the amended C3 on a concrete two-step run aborted before
its second step. -/
theorem workflow_abort_amended_witness :
    runWorkflow [true, true] (fun j => decide (1 ≤ j)) =
      (false, List.replicate 1 StepStatus.success ++
        List.replicate ([true, true].length - 1) StepStatus.pending) :=
  workflow_abort_amended [true, true] (fun j => decide (1 ≤ j)) 1 (by decide)
    (fun j hj => by
      have hj0 : j = 0 := by omega
      subst hj0
      decide)
    (fun j hj => by
      have hj0 : j = 0 := by omega
      subst hj0
      decide)
    (by decide)

/-- Claim C8 counterexample: a radio input whose value and id both differ
from the requested value is a radio value mismatch, yet `fillField` returns
true (mutating nothing and dispatching nothing) instead of the claimed
false. -/
theorem write_failure_cex :
    (fillField ⟨"r", none, ElemKind.input "radio", "male", false, false⟩ "female").ok = true ∧
    (fillField ⟨"r", none, ElemKind.input "radio", "male", false, false⟩ "female").el =
      ⟨"r", none, ElemKind.input "radio", "male", false, false⟩ ∧
    (fillField ⟨"r", none, ElemKind.input "radio", "male", false, false⟩ "female").events = [] := by
  exact ⟨by decide, by decide, by decide⟩

/-- Claim C8 (amended): `fillField` is total (never throws past its
boundary, the modelled catch) and returns false exactly when the write
raises or a select value matches no option; in those cases the element is
untouched and no events fire.  Radio mismatches and unrecognized element
kinds return true without mutating; fillForm classifies unresolved keys and
non-form elements before the writer runs. -/
theorem write_failure_amended (el : Element) (v : String) :
    ((fillField el v).ok = false ↔
      (el.throws = true ∨
        ∃ opts, el.kind = ElemKind.selectElem opts ∧ selMatch opts v = none)) ∧
    ((fillField el v).ok = false →
      (fillField el v).el = el ∧ (fillField el v).events = []) := by
  obtain ⟨eid, ename, ekind, evalue, echecked, ethrows⟩ := el
  cases ethrows with
  | true => simp [fillField]
  | false =>
    cases ekind with
    | input ty =>
      by_cases hcb : strLower ty = "checkbox"
      · by_cases hv : strLower v ∈ truthyTokens <;> cases echecked <;>
          simp [fillField, hcb, hv]
      · by_cases hrd : strLower ty = "radio"
        · by_cases hm : evalue = v ∨ eid = v
          · simp [fillField, hcb, hrd, hm]
          · simp [fillField, hcb, hrd, hm]
        · simp [fillField, hcb, hrd]
    | textarea => simp [fillField]
    | selectElem opts =>
      cases hm : selMatch opts v with
      | some w => simp [fillField, hm]
      | none => simp [fillField, hm]
    | other => simp [fillField]

/-- Witness for the amended C8: a modelled exception makes the write
return false. -/
theorem write_failure_amended_witness :
    (fillField ⟨"x", none, ElemKind.input "text", "", false, true⟩ "v").ok = false :=
  (write_failure_amended ⟨"x", none, ElemKind.input "text", "", false, true⟩ "v").1.mpr
    (Or.inl rfl)

/-- Claim C7: writing the same value twice in succession to the same target
succeeds the second time whenever it succeeded the first, and the second
write leaves the element exactly as the first write left it. -/
theorem fillField_idempotent (el : Element) (v : String)
    (h : (fillField el v).ok = true) :
    (fillField (fillField el v).el v).ok = true ∧
    (fillField (fillField el v).el v).el = (fillField el v).el := by
  obtain ⟨eid, ename, ekind, evalue, echecked, ethrows⟩ := el
  cases ethrows with
  | true => simp [fillField] at h
  | false =>
    cases ekind with
    | input ty =>
      by_cases hcb : strLower ty = "checkbox"
      · by_cases hv : strLower v ∈ truthyTokens <;> cases echecked <;>
          simp [fillField, hcb, hv]
      · by_cases hrd : strLower ty = "radio"
        · by_cases hm : evalue = v ∨ eid = v
          · simp [fillField, hcb, hrd, hm]
          · simp [fillField, hcb, hrd, hm]
        · simp [fillField, hcb, hrd]
    | textarea => simp [fillField]
    | selectElem opts =>
      cases hm : selMatch opts v with
      | some w => simp [fillField, hm]
      | none => rw [fillField] at h; simp [hm] at h
    | other => simp [fillField]

/-- Witness for C7 on a concrete text input. -/
theorem fillField_idempotent_witness :
    (fillField (fillField ⟨"t", none, ElemKind.input "text", "", false, false⟩ "x").el "x").ok =
      true ∧
    (fillField (fillField ⟨"t", none, ElemKind.input "text", "", false, false⟩ "x").el "x").el =
      (fillField ⟨"t", none, ElemKind.input "text", "", false, false⟩ "x").el :=
  fillField_idempotent ⟨"t", none, ElemKind.input "text", "", false, false⟩ "x" (by decide)

/-- Claim C4 counterexample: in the workflow executor's select fill, an
exact value match exists (`exactMatch` finds option value "2"), but the
single combined pass accepts the earlier option whose text "2" contains the
requested value, so the element ends with value "1", not "2" — exact value
matching does not take precedence there. -/
theorem select_matching_cex :
    exactMatch [⟨"1", "2"⟩, ⟨"2", "zz"⟩] "2" = some "2" ∧
    (execFrameFill [⟨"s", none, ElemKind.selectElem [⟨"1", "2"⟩, ⟨"2", "zz"⟩], "", false, false⟩]
      [("s", "2")]).1 = ["s"] ∧
    (execFrameFill [⟨"s", none, ElemKind.selectElem [⟨"1", "2"⟩, ⟨"2", "zz"⟩], "", false, false⟩]
      [("s", "2")]).2 =
      [⟨"s", none, ElemKind.selectElem [⟨"1", "2"⟩, ⟨"2", "zz"⟩], "1", false, false⟩] := by
  exact ⟨by decide, by decide, by decide⟩

/-- Claim C4 (amended): the content-script writer (`fillField`) does try an
exact option-value match first, falls back to the case-insensitive
text-substring match only when no value matches exactly, and returns false
when neither phase matches; the injected executor/quick-fill writer instead
scans the options once, taking the first option whose value matches exactly
or whose text contains the value case-insensitively, so an earlier text
match can shadow a later exact value match.  For options
[(value "M", text "Male")] and requested value "Male" both writers succeed
and set the element's value to "M". -/
theorem select_matching_amended :
    (∀ (el : Element) (opts : List SelOption) (v w : String),
      el.kind = ElemKind.selectElem opts → el.throws = false →
      exactMatch opts v = some w →
      fillField el v = ⟨true, { el with value := w }, dispatchedEvents⟩) ∧
    (∀ (el : Element) (opts : List SelOption) (v w : String),
      el.kind = ElemKind.selectElem opts → el.throws = false →
      exactMatch opts v = none → textMatch (strLower v) opts = some w →
      fillField el v = ⟨true, { el with value := w }, dispatchedEvents⟩) ∧
    (∀ (el : Element) (opts : List SelOption) (v : String),
      el.kind = ElemKind.selectElem opts → el.throws = false →
      exactMatch opts v = none → textMatch (strLower v) opts = none →
      fillField el v = ⟨false, el, []⟩) ∧
    (∀ (opts : List SelOption) (v : String),
      combinedMatch opts v =
        (opts.find? (fun o => o.value == v || strIncludes (strLower o.text) (strLower v))).map
          SelOption.value) ∧
    (fillField ⟨"s", none, ElemKind.selectElem [⟨"M", "Male"⟩], "", false, false⟩ "Male").ok =
      true ∧
    (fillField ⟨"s", none, ElemKind.selectElem [⟨"M", "Male"⟩], "", false, false⟩ "Male").el.value =
      "M" ∧
    (execFrameFill [⟨"s", none, ElemKind.selectElem [⟨"M", "Male"⟩], "", false, false⟩]
      [("s", "Male")]).2 =
      [⟨"s", none, ElemKind.selectElem [⟨"M", "Male"⟩], "M", false, false⟩] := by
  refine ⟨?_, ?_, ?_, combinedMatch_eq_find?, by decide, by decide, by decide⟩
  · intro el opts v w hk ht hex
    simp [fillField, ht, hk, selMatch, hex]
  · intro el opts v w hk ht hex htx
    simp [fillField, ht, hk, selMatch, hex, htx]
  · intro el opts v hk ht hex htx
    simp [fillField, ht, hk, selMatch, hex, htx]

/-- Witness for the amended C4: a select whose options match neither phase
fails and is untouched. -/
theorem select_matching_amended_witness :
    fillField ⟨"s", none, ElemKind.selectElem [⟨"A", "Alpha"⟩], "", false, false⟩ "zz" =
      ⟨false, ⟨"s", none, ElemKind.selectElem [⟨"A", "Alpha"⟩], "", false, false⟩, []⟩ :=
  select_matching_amended.2.2.1 ⟨"s", none, ElemKind.selectElem [⟨"A", "Alpha"⟩], "", false, false⟩
    [⟨"A", "Alpha"⟩] "zz" rfl rfl (by decide) (by decide)

/-- Claim C5 counterexample: the workflow executor's writer assigns the raw
string to a checkbox input instead of parsing it, so requesting "yes"
leaves checked = false (the claim requires checked = true) while the key is
still counted as filled. -/
theorem checkbox_write_cex :
    (execFrameFill [⟨"c", none, ElemKind.input "checkbox", "", false, false⟩]
      [("c", "yes")]).1 = ["c"] ∧
    (execFrameFill [⟨"c", none, ElemKind.input "checkbox", "", false, false⟩]
      [("c", "yes")]).2 =
      [⟨"c", none, ElemKind.input "checkbox", "yes", false, false⟩] ∧
    (⟨"c", none, ElemKind.input "checkbox", "yes", false, false⟩ : Element).checked = false := by
  exact ⟨by decide, by decide, by decide⟩

/-- Claim C5 (amended): the content-script writer parses checkbox values
case-insensitively against true/1/yes/on, leaves state, mutation and events
untouched when the parsed state equals the current one, and returns true
either way; the injected executor/quick-fill writer instead assigns the raw
value to any input — checkboxes included — leaving checked unchanged. -/
theorem checkbox_write_amended :
    (∀ (el : Element) (v ty : String),
      el.kind = ElemKind.input ty → strLower ty = "checkbox" → el.throws = false →
      (fillField el v).ok = true ∧
      (fillField el v).el.checked = truthyTokens.contains (strLower v) ∧
      (fillField el v).el.value = el.value ∧
      (el.checked = truthyTokens.contains (strLower v) →
        (fillField el v).el = el ∧ (fillField el v).events = []) ∧
      (el.checked ≠ truthyTokens.contains (strLower v) →
        (fillField el v).events = dispatchedEvents)) ∧
    (∀ (el : Element) (ty v : String), el.kind = ElemKind.input ty →
      quickWrite el v = some { el with value := v }) := by
  constructor
  · intro el v ty hk hcb ht
    obtain ⟨eid, ename, ekind, evalue, echecked, ethrows⟩ := el
    simp only at hk ht
    subst hk
    subst ht
    by_cases hv : strLower v ∈ truthyTokens <;> cases echecked <;>
      simp [fillField, hcb, hv]
  · intro el ty v hk
    simp [quickWrite, hk]

/-- Witness for the amended C5: "YES" parses to checked on the
content-script side, while the executor writer only stores the string. -/
theorem checkbox_write_amended_witness :
    ((fillField ⟨"c", none, ElemKind.input "checkbox", "", false, false⟩ "YES").el.checked =
      truthyTokens.contains (strLower "YES")) ∧
    quickWrite ⟨"c", none, ElemKind.input "checkbox", "", false, false⟩ "yes" =
      some ⟨"c", none, ElemKind.input "checkbox", "yes", false, false⟩ :=
  ⟨(checkbox_write_amended.1 ⟨"c", none, ElemKind.input "checkbox", "", false, false⟩ "YES"
      "checkbox" rfl (by decide) rfl).2.1,
   checkbox_write_amended.2 ⟨"c", none, ElemKind.input "checkbox", "", false, false⟩
      "checkbox" "yes" rfl⟩

/-- Claim C6 counterexample: with a page holding one interactive element
(a bare button with empty id and class), a never-appearing target still
times out, but the diagnostic list for that frame is empty — the
enumeration keeps only selector matches with a non-empty id or class. -/
theorem wait_timeout_cex :
    interactiveTag ⟨"BUTTON", "", "", "Save"⟩ = true ∧
    waitPoll (fun _ => false) (fun _ => false) [[⟨"BUTTON", "", "", "Save"⟩]] "#next" 0 10 =
      ⟨false, "Timeout waiting for: #next", [[]]⟩ := by
  exact ⟨by decide, by decide⟩

/-- Claim C6 (amended): a target that never appears within the poll budget
(and no abort) ends the wait step in a failure whose message names the
timeout and whose diagnostics enumerate each frame; a frame's diagnostic
list is non-empty exactly when it is guaranteed by some element matching
the diagnostic selector (anchor, button, or category/menu/Clinical id or
class pattern) that also has a non-empty id or class — interactive elements
without either attribute are omitted. -/
theorem wait_timeout_amended (abortFlag found : Nat → Bool) (frames : List (List PageElem))
    (sel : String) (i fuel : Nat)
    (hab : ∀ j, abortFlag j = false) (hnf : ∀ j, found j = false) :
    waitPoll abortFlag found frames sel i fuel =
      ⟨false, "Timeout waiting for: " ++ sel, frames.map navDiagnostics⟩ ∧
    ∀ page : List PageElem,
      (∃ e ∈ page, matchesNavSelector e = true ∧ (e.id ≠ "" ∨ e.className ≠ "")) →
      navDiagnostics page ≠ [] := by
  constructor
  · induction fuel generalizing i with
    | zero => rw [waitPoll]
    | succ fuel ih =>
      rw [waitPoll, hab i, hnf i]
      simp only [Bool.false_eq_true, if_false]
      exact ih (i + 1)
  · rintro page ⟨e, he, hm, hid⟩
    have hmem : e ∈ page.filter
        (fun e => matchesNavSelector e && (e.id != "" || e.className != "")) := by
      rw [List.mem_filter]
      refine ⟨he, ?_⟩
      simp only [Bool.and_eq_true, Bool.or_eq_true, bne_iff_ne]
      exact ⟨hm, hid⟩
    rw [navDiagnostics]
    cases hfl : page.filter
        (fun e => matchesNavSelector e && (e.id != "" || e.className != "")) with
    | nil => rw [hfl] at hmem; simp at hmem
    | cons a l =>
      intro hcontra
      rw [List.take_eq_nil_iff] at hcontra
      simp at hcontra

/-- Witness for the amended C6: timing out over one frame with a matching
anchor produces the expected failure and its one-element diagnostic list. -/
theorem wait_timeout_amended_witness :
    waitPoll (fun _ => false) (fun _ => false)
      [[⟨"A", "category_Clinical", "nav-link", "Clinical"⟩]] "#x" 0 3 =
      ⟨false, "Timeout waiting for: " ++ "#x",
        [[⟨"A", "category_Clinical", "nav-link", "Clinical"⟩]].map navDiagnostics⟩ ∧
    navDiagnostics [⟨"A", "category_Clinical", "nav-link", "Clinical"⟩] ≠ [] :=
  ⟨(wait_timeout_amended (fun _ => false) (fun _ => false)
      [[⟨"A", "category_Clinical", "nav-link", "Clinical"⟩]] "#x" 0 3
      (fun _ => rfl) (fun _ => rfl)).1,
   (wait_timeout_amended (fun _ => false) (fun _ => false)
      [[⟨"A", "category_Clinical", "nav-link", "Clinical"⟩]] "#x" 0 3
      (fun _ => rfl) (fun _ => rfl)).2
      [⟨"A", "category_Clinical", "nav-link", "Clinical"⟩]
      ⟨⟨"A", "category_Clinical", "nav-link", "Clinical"⟩, by decide, by decide,
        Or.inl (by decide)⟩⟩

/-- Claim C2 counterexample: key "k" resolves in both frames; frame 1's
write raises (reported failed) and frame 2's write succeeds (reported
filled), yet the aggregation reports "k" failed and not filled — a key is
not reported filled whenever some context succeeds, because the first
context to mention a key wins. -/
theorem fill_reconciliation_cex :
    "k" ∈ (quickFrameFill [⟨"k", none, ElemKind.input "text", "", false, false⟩]
      [("k", "v")]).1.filled ∧
    (quickFillAggregate
      [[⟨"k", none, ElemKind.input "text", "", false, true⟩],
       [⟨"k", none, ElemKind.input "text", "", false, false⟩]] [("k", "v")]).filled = [] ∧
    (quickFillAggregate
      [[⟨"k", none, ElemKind.input "text", "", false, true⟩],
       [⟨"k", none, ElemKind.input "text", "", false, false⟩]] [("k", "v")]).failed = ["k"] := by
  exact ⟨by decide, by decide, by decide⟩

/-- Claim C2 (amended): in the multi-context reconciliation a key's status
is decided by the first context (in frame order) that reports it — a
successful write reports filled, a write that raised reports failed, and a
located-but-unwritten target (unmatched select, non-form element) reports
nothing; later contexts' reports for that key are never reconsidered,
whatever their outcome.  A key is notFound exactly when it is a mapping key
no context reported at all. -/
theorem fill_reconciliation_amended (docs : List (List Element))
    (m : List (String × String)) (k : String) :
    (k ∈ (quickFillAggregate docs m).filled ↔
      firstReport (docs.map (fun d => (quickFrameFill d m).1)) k = some true) ∧
    (k ∈ (quickFillAggregate docs m).failed ↔
      firstReport (docs.map (fun d => (quickFrameFill d m).1)) k = some false) ∧
    (k ∈ (quickFillAggregate docs m).notFound ↔
      (k ∈ m.map Prod.fst ∧
        firstReport (docs.map (fun d => (quickFrameFill d m).1)) k = none)) := by
  refine ⟨?_, ?_, ?_⟩
  · rw [quickFillAggregate, aggregateFill_filled_iff]
  · rw [quickFillAggregate, aggregateFill_failed_iff]
  · rw [quickFillAggregate, aggregateFill_notFound_iff]

/-- Claim C1: both the single-context `fillForm` outcome and the aggregated
multi-context quick-fill outcome partition the mapping's keys — union
exactly the key set, pairwise disjoint. -/
theorem fill_outcome_partition (doc : List Element) (docs : List (List Element))
    (m : List (String × String)) (hnd : (m.map Prod.fst).Nodup) :
    PartitionsKeys (fillForm doc m).1 (m.map Prod.fst) ∧
    PartitionsKeys (quickFillAggregate docs m) (m.map Prod.fst) := by
  constructor
  · exact perm_partitionsKeys _ _ (fillForm_perm m doc) hnd
  · rw [quickFillAggregate]
    refine aggregate_partitionsKeys _ _ ?_
    intro r hr
    simp only [List.mem_map] at hr
    obtain ⟨d, _, rfl⟩ := hr
    exact ⟨fun k hk => quickFrameFill_filled_sub k m d hk,
           fun k hk => quickFrameFill_failed_sub k m d hk⟩

/-- Witness for C1 on a concrete document, frame list and two-key
mapping. -/
theorem fill_outcome_partition_witness :
    PartitionsKeys
      (fillForm [⟨"a", none, ElemKind.input "text", "", false, false⟩]
        [("a", "1"), ("b", "2")]).1
      ([("a", "1"), ("b", "2")].map Prod.fst) ∧
    PartitionsKeys
      (quickFillAggregate [[⟨"a", none, ElemKind.input "text", "", false, false⟩]]
        [("a", "1"), ("b", "2")])
      ([("a", "1"), ("b", "2")].map Prod.fst) :=
  fill_outcome_partition [⟨"a", none, ElemKind.input "text", "", false, false⟩]
    [[⟨"a", none, ElemKind.input "text", "", false, false⟩]]
    [("a", "1"), ("b", "2")] (by decide)

/-- Claim C10: `fillForm` resolves a key by element id first and falls back
to the name attribute only when the id lookup misses; a key resolving to an
element that is not an input, textarea or select is classified failed (and
not notFound), while notFound is exactly the keys neither lookup
resolves. -/
theorem fillForm_resolution_policy (doc : List Element) (m : List (String × String))
    (k v : String) (hkv : (k, v) ∈ m) (hnd : (m.map Prod.fst).Nodup) :
    (∀ e, doc.find? (elemMatchesId k) = some e → resolveTarget doc k = some e) ∧
    (doc.find? (elemMatchesId k) = none →
      resolveTarget doc k = doc.find? (elemMatchesName k)) ∧
    (resolveTarget doc k = none →
      k ∈ (fillForm doc m).1.notFound ∧ k ∉ (fillForm doc m).1.failed ∧
      k ∉ (fillForm doc m).1.filled) ∧
    (∀ e, resolveTarget doc k = some e → isFormElement e = false →
      k ∈ (fillForm doc m).1.failed ∧ k ∉ (fillForm doc m).1.notFound) := by
  have hclass := fillForm_classify k v m doc doc rfl hkv
  have hpart := perm_partitionsKeys _ _ (fillForm_perm m doc) hnd
  refine ⟨?_, ?_, ?_, ?_⟩
  · intro e h
    rw [resolveTarget, h]
  · intro h
    rw [resolveTarget, h]
  · intro h0
    have h1 := hclass.1 h0
    exact ⟨h1, fun hf => hpart.2.2.2 k ⟨hf, h1⟩, fun hf => hpart.2.2.1 k ⟨hf, h1⟩⟩
  · intro e h0 hf
    have h1 := hclass.2.1 e h0 hf
    exact ⟨h1, fun hn => hpart.2.2.2 k ⟨h1, hn⟩⟩

/-- Witness for C10: a key resolving (by name) to a non-form element lands
in failed, not notFound. -/
theorem fillForm_resolution_policy_witness :
    "d" ∈ (fillForm [⟨"d", some "d", ElemKind.other, "", false, false⟩]
      [("d", "x")]).1.failed ∧
    "d" ∉ (fillForm [⟨"d", some "d", ElemKind.other, "", false, false⟩]
      [("d", "x")]).1.notFound :=
  (fillForm_resolution_policy [⟨"d", some "d", ElemKind.other, "", false, false⟩]
    [("d", "x")] "d" "x" (by decide) (by decide)).2.2.2
    ⟨"d", some "d", ElemKind.other, "", false, false⟩ (by decide) (by decide)
